import Mathlib

/-!
Verification development for the bitbucket-repo-puller synchronization engine
(`src/main.rs`).  The Rust program is shallowly embedded: pure helpers become
Lean functions, the effectful per-repository loop of `main` becomes a step
function over an explicit environment that records the outcome of every
external effect (filesystem stat, process spawn, process wait, directory
change, UTF-8 decoding), and each per-repository iteration produces a trace
of observable events together with a control-flow verdict (advance to the
next repo, abort the run via error propagation, or abort via a panic).
-/

/-! ## Data model (from the serde structs in `main.rs`) -/

/-- Embeds `BitBucketRepoLink` with fields `href` and `name` (`Option<String>`). -/
structure BitBucketRepoLink where
  href : String
  name : Option String
deriving DecidableEq, Repr

/-- Embeds `BitBucketRepo`: `slug`, `name`, and the `links`
`HashMap<String, Vec<BitBucketRepoLink>>`, modelled as an association list. -/
structure BitBucketRepo where
  slug : String
  name : String
  links : List (String × List BitBucketRepoLink)
deriving DecidableEq, Repr

/-- Lookup in the association-list model of the `links` hash map
(`repo.links.get(key)`). -/
def lookupLinks (links : List (String × List BitBucketRepoLink)) (key : String) :
    Option (List BitBucketRepoLink) :=
  (links.find? (fun p => p.1 == key)).map Prod.snd

/-- Embeds `get_clone_link_for_repo`.  The code calls
`repo.links.get("clone").unwrap()`, so a missing `"clone"` category is a
panic, modelled as `Except.error`.  Otherwise it filters entries whose
`name` (defaulted to the empty string) equals `"ssh"` and takes the first
match's `href`. -/
def get_clone_link_for_repo (repo : BitBucketRepo) : Except String (Option String) :=
  match lookupLinks repo.links "clone" with
  | none => Except.error "called Option::unwrap on a None value"
  | some ls =>
      Except.ok (((ls.filter (fun link => link.name.getD "" == "ssh")).head?).map
        (fun link => link.href))

/-! ## Ref-listing parser and branch selector

Embeds the iterator pipeline of `main.rs` lines 213-221:
`from_utf8(stdout)?.lines().map(split on bar, unwrap origin-strip,
unwrap second field).filter(name != HEAD).next()`.
String splitting is modelled character-wise over `List Char`, mirroring
Rust `str::split` / `str::lines` exactly. -/

/-- Rust `str::split('|')` restricted to the two `next()` calls the code
makes: returns the text before the first bar and the list of remaining
pieces (the code reads only the head of that list). -/
def splitBarNE : List Char → List Char × List (List Char)
  | [] => ([], [])
  | c :: cs =>
      let r := splitBarNE cs
      if c = '|' then ([], r.1 :: r.2) else (c :: r.1, r.2)

/-- Rust `str::strip_prefix`: `some` of the remainder when `p` is a prefix
of the second argument, otherwise `none`. -/
def dropPfxChars : List Char → List Char → Option (List Char)
  | [], cs => some cs
  | _ :: _, [] => none
  | p :: ps, c :: cs => if c = p then dropPfxChars ps cs else none

/-- Embeds the per-line closure of the ref-listing pipeline.  Mirrors the
evaluation order of the Rust tuple expression: first `next()` (always
succeeds on `split`), then `.strip_prefix("origin/").unwrap()` (panics when
the prefix is absent), then the second `next().unwrap()` (panics when the
line has no bar).  Panics are modelled as `Except.error`. -/
def parseRefLineChars (line : List Char) : Except String (List Char × List Char) :=
  match dropPfxChars ("origin/".toList) (splitBarNE line).1 with
  | none => Except.error "strip_prefix origin returned None"
  | some short =>
      match (splitBarNE line).2.head? with
      | none => Except.error "split produced no second field"
      | some date => Except.ok (short, date)

/-- Outcome of the lazy `filter(...).next()` selection. -/
inductive SelectResult
  | found (branch commitDate : String)
  | noBranch
  | crash (msg : String)
deriving DecidableEq, Repr

/-- Whether the selection ended in a panic. -/
def SelectResult.isCrash : SelectResult → Bool
  | .crash _ => true
  | _ => false

/-- Lazy selection over the parsed lines: Rust's iterator chain only forces
elements up to and including the first entry whose stripped name differs
from `HEAD`; a line that fails to parse before that point panics, and lines
after the first survivor are never examined. -/
def selectFromLines : List String → SelectResult
  | [] => .noBranch
  | l :: rest =>
      match parseRefLineChars l.toList with
      | .error m => .crash m
      | .ok (b, d) =>
          if b = "HEAD".toList then selectFromLines rest
          else .found (String.mk b) (String.mk d)

/-- Rust `str::split('\n')` as a full piece list (always nonempty). -/
def splitNL : List Char → List (List Char)
  | [] => [[]]
  | c :: cs =>
      match splitNL cs with
      | [] => [[]]
      | p :: ps => if c = '\n' then [] :: p :: ps else (c :: p) :: ps

/-- Removes one trailing carriage return (the CR of a CRLF line ending). -/
def stripCR (l : List Char) : List Char :=
  if l.getLast? = some '\r' then l.dropLast else l

/-- Post-processing of the newline pieces, as Rust `str::lines` does it: a
final empty piece (the string ended with a newline) is dropped; every
newline-terminated piece loses a trailing CR; an unterminated final piece is
kept verbatim. -/
def rustLinesPieces : List (List Char) → List (List Char)
  | [] => []
  | [last] => if last = [] then [] else [last]
  | p :: q :: rest => stripCR p :: rustLinesPieces (q :: rest)

/-- Embeds Rust `str::lines` on the decoded stdout. -/
def rustLines (s : String) : List String :=
  (rustLinesPieces (splitNL s.toList)).map String.mk

/-- Embeds the whole selection phase: split the decoded ref-listing output
into lines and run the lazy parse/filter/next pipeline. -/
def select (rawOutput : String) : SelectResult :=
  selectFromLines (rustLines rawOutput)

/-! ## Orchestrator: the per-repository loop of `main`

Each external effect the loop performs is given its outcome by a
`RepoEnv` record; the loop body `processRepo` then computes the trace of
observable events, the control-flow verdict, and the resulting current
working directory, exactly following the branch structure of the Rust
code (`main.rs` lines 137-262). -/

/-- Result of `tokio::fs::symlink_metadata` (a non-dereferencing stat: a
symlink is reported as kind `symlink`, not followed). -/
inductive FileKind
  | directory
  | regularFile
  | symlink
deriving DecidableEq, Repr

/-- Outcome of the stat call: metadata of some kind, a not-found error, or
any other I/O error with its message. -/
inductive StatOutcome
  | found (kind : FileKind)
  | notFound
  | otherError (msg : String)
deriving DecidableEq, Repr

/-- Whether the stat metadata reports a directory (`metadata.is_dir()`). -/
def FileKind.isDirKind : FileKind → Bool
  | .directory => true
  | _ => false

/-- Embeds the `RepoActionState` enum of `main.rs`. -/
inductive RepoActionState
  | shouldClone
  | alreadyCloned
  | cannotClone (msg : String)
deriving DecidableEq, Repr

/-- Embeds the `match symlink_metadata(&repo.slug).await` classification:
metadata of a directory is `AlreadyCloned`; metadata of anything else is
`CannotClone` with an already-exists message; a not-found error is
`ShouldClone`; any other error is `CannotClone` carrying that error. -/
def repoStateOfStat : StatOutcome → RepoActionState
  | .found k =>
      if k.isDirKind then .alreadyCloned
      else .cannotClone "exists on filesystem but is not a directory"
  | .notFound => .shouldClone
  | .otherError m => .cannotClone m

/-- Outcome of `Command::spawn()`. -/
inductive SpawnOutcome
  | spawned
  | failed (msg : String)
deriving DecidableEq, Repr

/-- Outcome of `child.wait().await`: a normal exit with a code, termination
by a signal (`status.code()` is `None`), or an error from `wait` itself. -/
inductive WaitOutcome
  | exited (code : Int)
  | signaled
  | waitError (msg : String)
deriving DecidableEq, Repr

/-- Whether waiting reported a clean zero exit. -/
def WaitOutcome.isSuccess : WaitOutcome → Bool
  | .exited c => c == 0
  | _ => false

/-- Outcome of `env::set_current_dir`. -/
inductive CdOutcome
  | success
  | failure (msg : String)
deriving DecidableEq, Repr

/-- Captured result of `Command::output().await` for `git for-each-ref`:
the exit status code as the code would see it (never inspected by the
program) and the stdout bytes, `some` a string when they are valid UTF-8
and `none` when `std::str::from_utf8` would fail. -/
structure RefsOutput where
  statusCode : Option Int
  stdoutUtf8 : Option String
deriving DecidableEq, Repr

/-- Outcomes of every external effect one loop iteration can perform. -/
structure RepoEnv where
  stat : StatOutcome
  cloneSpawn : SpawnOutcome
  cloneWait : WaitOutcome
  enterRepoDir : CdOutcome
  refsRun : Option RefsOutput
  checkoutSpawn : SpawnOutcome
  checkoutWait : WaitOutcome
  pullSpawn : SpawnOutcome
  pullWait : WaitOutcome
  leaveRepoDir : CdOutcome
deriving DecidableEq, Repr

/-- Abstract current working directory: the directory the process started
in, the (absolute) target directory, or a subdirectory entered from some
other directory. -/
inductive WorkDir
  | original
  | targetDir
  | sub (parent : WorkDir) (component : String)
deriving DecidableEq, Repr

/-- Observable events of one loop iteration: external commands started,
diagnostics printed, and directory changes. -/
inductive Event
  | probed (slug : String)
  | conflictReported (slug : String)
  | noCloneLinkReported (name : String)
  | cloneSpawnFailureLogged (link : String)
  | cloneStarted (link : String)
  | cloneFailureLogged (link : String)
  | alreadyClonedReported (slug : String)
  | enteredRepoDir (slug : String)
  | refsListed (slug : String)
  | refsSpawnFailureLogged (slug : String)
  | checkoutSpawnFailureLogged (branch : String)
  | checkoutStarted (branch : String)
  | checkoutFailureLogged (branch : String)
  | pullSpawnFailureLogged (slug : String)
  | pullStarted (slug : String)
  | pullFailureLogged (slug : String)
  | leftRepoDir (slug : String)
deriving DecidableEq, Repr

/-- Control-flow verdict of one loop iteration: fall to the next iteration
(both normal completion and `continue`), abort the run through the `?`
operator (main returns `Err`, nonzero exit), or abort through a panic. -/
inductive StepExit
  | advance
  | abortErr (msg : String)
  | crashed (msg : String)
deriving DecidableEq, Repr

/-- Result of one loop iteration. -/
structure RepoResult where
  trace : List Event
  exit : StepExit
  cwd : WorkDir
deriving DecidableEq, Repr

/-- Diagnostics printed after `child.wait()` for `git clone`: a failure
line is logged exactly when the wait result is not a clean zero exit. -/
def cloneWaitEvents (link : String) : WaitOutcome → List Event
  | .exited c => if c == 0 then [] else [.cloneFailureLogged link]
  | .signaled => [.cloneFailureLogged link]
  | .waitError _ => [.cloneFailureLogged link]

/-- Same logging discipline for `git checkout`. -/
def checkoutWaitEvents (branch : String) : WaitOutcome → List Event
  | .exited c => if c == 0 then [] else [.checkoutFailureLogged branch]
  | .signaled => [.checkoutFailureLogged branch]
  | .waitError _ => [.checkoutFailureLogged branch]

/-- Same logging discipline for `git pull`. -/
def pullWaitEvents (slug : String) : WaitOutcome → List Event
  | .exited c => if c == 0 then [] else [.pullFailureLogged slug]
  | .signaled => [.pullFailureLogged slug]
  | .waitError _ => [.pullFailureLogged slug]

/-- Embeds `main.rs` lines 261 + loop end: `env::set_current_dir(&opts.
target_directory)?` — success moves to the (absolute) target directory,
failure propagates through `?`. -/
def restoreAndAdvance (slug : String) (env : RepoEnv) (t : List Event)
    (cwd : WorkDir) : RepoResult :=
  match env.leaveRepoDir with
  | .failure m => ⟨t, .abortErr m, cwd⟩
  | .success => ⟨t ++ [.leftRepoDir slug], .advance, WorkDir.targetDir⟩

/-- Embeds `main.rs` lines 195-261: enter the repo directory (`?` on
failure), run `git for-each-ref` (spawn failure logs and continues, the
exit status of the command is never inspected), decode stdout (`?` on
failure), select a branch (possibly panicking on a malformed line), and if
one is found run checkout then pull (a spawn failure of either logs and
continues to the next repo; any other non-success is logged and processing
goes on), finally restoring the working directory to the target
directory. -/
def branchSync (slug : String) (env : RepoEnv) (t : List Event)
    (cwd : WorkDir) : RepoResult :=
  match env.enterRepoDir with
  | .failure m => ⟨t, .abortErr m, cwd⟩
  | .success =>
    let cwd1 := WorkDir.sub cwd slug
    let t1 := t ++ [.enteredRepoDir slug]
    match env.refsRun with
    | none => ⟨t1 ++ [.refsSpawnFailureLogged slug], .advance, cwd1⟩
    | some out =>
      let t2 := t1 ++ [.refsListed slug]
      match out.stdoutUtf8 with
      | none => ⟨t2, .abortErr "stdout is not valid UTF-8", cwd1⟩
      | some raw =>
        match select raw with
        | .crash m => ⟨t2, .crashed m, cwd1⟩
        | .noBranch => restoreAndAdvance slug env t2 cwd1
        | .found b _ =>
          match env.checkoutSpawn with
          | .failed _ => ⟨t2 ++ [.checkoutSpawnFailureLogged b], .advance, cwd1⟩
          | .spawned =>
            let t3 := t2 ++ [.checkoutStarted b] ++ checkoutWaitEvents b env.checkoutWait
            match env.pullSpawn with
            | .failed _ => ⟨t3 ++ [.pullSpawnFailureLogged slug], .advance, cwd1⟩
            | .spawned =>
              let t4 := t3 ++ [.pullStarted slug]
                ++ pullWaitEvents slug env.pullWait
              restoreAndAdvance slug env t4 cwd1

/-- Embeds one full iteration of the `for repo in resp.repos` loop:
classify the stat result; a `CannotClone` state logs a diagnostic and
continues; a `ShouldClone` state resolves the clone link (panicking when
the `"clone"` category is absent), continues with a report when no ssh
link matches, otherwise spawns `git clone` (spawn failure logs and
continues; any other non-success is logged and processing goes on to the
branch-sync phase); an `AlreadyCloned` state logs and goes directly to the
branch-sync phase. -/
def processRepo (repo : BitBucketRepo) (env : RepoEnv) (cwd : WorkDir) : RepoResult :=
  let t0 : List Event := [.probed repo.slug]
  match repoStateOfStat env.stat with
  | .cannotClone _ => ⟨t0 ++ [.conflictReported repo.slug], .advance, cwd⟩
  | .shouldClone =>
    match get_clone_link_for_repo repo with
    | .error m => ⟨t0, .crashed m, cwd⟩
    | .ok none => ⟨t0 ++ [.noCloneLinkReported repo.name], .advance, cwd⟩
    | .ok (some link) =>
      match env.cloneSpawn with
      | .failed _ => ⟨t0 ++ [.cloneSpawnFailureLogged link], .advance, cwd⟩
      | .spawned =>
          branchSync repo.slug env
            (t0 ++ [.cloneStarted link] ++ cloneWaitEvents link env.cloneWait) cwd
  | .alreadyCloned =>
      branchSync repo.slug env (t0 ++ [.alreadyClonedReported repo.slug]) cwd

/-- Runs the loop over the whole repo list, stopping early when an
iteration aborts the run (error propagation or panic). -/
def runRepos : List (BitBucketRepo × RepoEnv) → WorkDir → List Event × StepExit × WorkDir
  | [], cwd => ([], .advance, cwd)
  | (repo, env) :: rest, cwd =>
    let r := processRepo repo env cwd
    match r.exit with
    | .advance =>
        let rec' := runRepos rest r.cwd
        (r.trace ++ rec'.1, rec'.2.1, rec'.2.2)
    | e => (r.trace, e, r.cwd)

/-- Process-level exit of the embedded `main` body after startup: a clean
`Ok(())` (exit code 0), an `Err` return (nonzero exit code), or a panic
(abnormal nonzero termination). -/
inductive MainExit
  | ok
  | errExit (msg : String)
  | panicExit (msg : String)
deriving DecidableEq, Repr

/-- Embeds the post-startup body of `main`: run the loop starting from the
target directory, then `env::set_current_dir(orig_curr_dir)?` (the saved
original directory is absolute, so a successful final restore lands on the
original directory regardless of the directory the loop ended in). -/
def runMain (repos : List (BitBucketRepo × RepoEnv)) (restoreOriginalDir : CdOutcome) :
    List Event × MainExit × WorkDir :=
  let r := runRepos repos WorkDir.targetDir
  match r.2.1 with
  | .advance =>
      match restoreOriginalDir with
      | .failure m => (r.1, .errExit m, r.2.2)
      | .success => (r.1, .ok, WorkDir.original)
  | .abortErr m => (r.1, .errExit m, r.2.2)
  | .crashed m => (r.1, .panicExit m, r.2.2)

/-! ## Claim-level definitions

These definitions follow the words of the specification (not the code) and
are compared against the embedded code in the refinement theorems below. -/

/-- Modelled from the spec: section 4.5's per-line description — split a
line on the *first* bar into a ref field and a date field, then strip the
`origin/` remote-tracking prefix from the ref field (`none` when the
prefix is absent). -/
def claimEntry (l : String) : Option (String × String) :=
  let cs := l.toList
  let refField := cs.takeWhile (fun c => c != '|')
  let dateField := (cs.dropWhile (fun c => c != '|')).drop 1
  match dropPfxChars ("origin/".toList) refField with
  | none => none
  | some b => some (String.mk b, String.mk dateField)

/-- Modelled from the spec: selection is the first entry, in input order,
whose stripped name is not exactly `HEAD`; `none` when no entry survives. -/
def claimSelect (lines : List String) : Option (String × String) :=
  ((lines.filterMap claimEntry).filter (fun e => e.1 != "HEAD")).head?

/-- Well-formedness of one ref line as the code's happy path expects it:
the line starts with `origin/` and contains exactly one bar. -/
def wfRefLine (l : String) : Bool :=
  match dropPfxChars ("origin/".toList) l.toList with
  | none => false
  | some rest => rest.count '|' == 1

/-- Malformedness as claim C4 words it: the ref field (the text before the
first bar) lacks the `origin/` prefix, or the line cannot be split on a
bar into two fields. -/
def claimMalformed (l : String) : Bool :=
  (dropPfxChars ("origin/".toList) (l.toList.takeWhile (fun c => c != '|'))).isNone
    || !(l.toList.contains '|')

/-- A line that parses and whose stripped name is exactly `HEAD` (such
lines are consumed and discarded by the lazy filter). -/
def headOnlyLine (l : String) : Bool :=
  match parseRefLineChars l.toList with
  | .ok bd => bd.1 == "HEAD".toList
  | .error _ => false

/-- Projects a probe event to its slug (used to state which repositories
an execution attempted, in order). -/
def probedSlug : Event → Option String
  | .probed s => some s
  | _ => none

/-- The ref-listing step neither aborts the run nor panics: either the
command failed to spawn, or its stdout decodes and selection does not hit
a malformed line. -/
def decodeTame : Option RefsOutput → Bool
  | none => true
  | some out =>
      match out.stdoutUtf8 with
      | none => false
      | some raw => !(select raw).isCrash

/-- The clone-link resolution step does not panic: whenever the probe will
report the repo absent, the descriptor has a `"clone"` link category. -/
def cloneLinkTame (repo : BitBucketRepo) (env : RepoEnv) : Bool :=
  match env.stat with
  | .notFound =>
      match get_clone_link_for_repo repo with
      | .ok _ => true
      | .error _ => false
  | _ => true

/-- An iteration environment that avoids every abort/panic source of the
loop body: directory changes succeed, ref-listing stdout decodes, no
malformed ref line is reached before the first surviving entry, and the
clone category is present when it will be consulted.  Command failures
(clone/checkout/pull non-success, ref-listing spawn failure) are still
allowed. -/
@[reducible] def tameEnv (repo : BitBucketRepo) (env : RepoEnv) : Prop :=
  env.enterRepoDir = CdOutcome.success ∧
  env.leaveRepoDir = CdOutcome.success ∧
  decodeTame env.refsRun = true ∧
  cloneLinkTame repo env = true

/-! ## Concrete fixtures for counterexamples and witnesses -/

/-- The ref-listing example used by the spec for the selector. -/
def exampleRefListing : String :=
  "origin/main|2024-01-01\norigin/HEAD|2024-01-01\norigin/dev|2023-12-01"

/-- A listing whose first line lacks the `origin/` prefix. -/
def malformedListing : String := "main|2024-01-01\norigin/dev|2023-12-01"

/-- Captured ref-listing output with a clean status and one branch. -/
def refsOutMain : RefsOutput := ⟨some 0, some "origin/main|Mon Jan 1"⟩

/-- An iteration where everything succeeds for an already-cloned repo. -/
def envHappy : RepoEnv :=
  ⟨.found .directory, .spawned, .exited 0, .success, some refsOutMain,
   .spawned, .exited 0, .spawned, .exited 0, .success⟩

/-- Claim C8 fixture: the spec's two-entry clone link set. -/
def repoSshHttp : BitBucketRepo :=
  ⟨"repo-s", "Repo S", [("clone", [⟨"ssh://x", some "ssh"⟩, ⟨"https://x", some "http"⟩])]⟩

/-- Claim C8 fixture: a clone category with no ssh entry. -/
def repoHttpOnly : BitBucketRepo :=
  ⟨"repo-h", "Repo H", [("clone", [⟨"https://x", some "http"⟩])]⟩

/-- A descriptor with no link categories at all. -/
def repoNoLinks : BitBucketRepo := ⟨"repo-n", "Repo N", []⟩

/-- Claim C1 fixture: entering the repo directory fails. -/
def envEnterFails : RepoEnv :=
  ⟨.found .directory, .spawned, .exited 0, .failure "permission denied",
   some refsOutMain, .spawned, .exited 0, .spawned, .exited 0, .success⟩

/-- Claim C1 fixture: the repo whose directory cannot be entered. -/
def repoOne : BitBucketRepo := ⟨"repo-one", "Repo One", []⟩

/-- Claim C1 fixture: a second, perfectly healthy repo after the failing one. -/
def repoTwo : BitBucketRepo :=
  ⟨"repo-two", "Repo Two", [("clone", [⟨"ssh://two", some "ssh"⟩])]⟩

/-- Claim C1/C2/C6 fixture: `git for-each-ref` fails to spawn. -/
def envRefsSpawnFails : RepoEnv :=
  ⟨.found .directory, .spawned, .exited 0, .success, none,
   .spawned, .exited 0, .spawned, .exited 0, .success⟩

/-- Claim C1 fixture: the clone exits nonzero but everything else works. -/
def envCloneExit1 : RepoEnv :=
  ⟨.notFound, .spawned, .exited 1, .success, some refsOutMain,
   .spawned, .exited 0, .spawned, .exited 0, .success⟩

/-- Claim C2 fixture. -/
def repoY : BitBucketRepo := ⟨"repo-y", "Repo Y", []⟩

/-- Claim C5 fixture. -/
def repoC5 : BitBucketRepo :=
  ⟨"repo-c5", "Repo C5", [("clone", [⟨"ssh://c5", some "ssh"⟩])]⟩

/-- Claim C5 fixture: `git clone` cannot be spawned. -/
def envCloneSpawnFails : RepoEnv :=
  ⟨.notFound, .failed "no git executable", .exited 0, .success, some refsOutMain,
   .spawned, .exited 0, .spawned, .exited 0, .success⟩

/-- Claim C6 fixture. -/
def repoC6 : BitBucketRepo := ⟨"repo-c6", "Repo C6", []⟩

/-- Claim C6 fixture: the ref-listing command exits nonzero, yet its
captured stdout still holds a branch line. -/
def envRefsBadStatus : RepoEnv :=
  ⟨.found .directory, .spawned, .exited 0, .success,
   some ⟨some 128, some "origin/main|Mon Jan 1"⟩,
   .spawned, .exited 0, .spawned, .exited 0, .success⟩

/-- Claim C6 fixture: the captured stdout is not valid UTF-8. -/
def envRefsBadUtf8 : RepoEnv :=
  ⟨.found .directory, .spawned, .exited 0, .success, some ⟨some 0, none⟩,
   .spawned, .exited 0, .spawned, .exited 0, .success⟩

/-- Claim C7 fixture. -/
def repoC7 : BitBucketRepo := ⟨"repo-c7", "Repo C7", []⟩

/-- Claim C7 fixture: `git checkout` cannot be spawned. -/
def envCheckoutSpawnFails : RepoEnv :=
  ⟨.found .directory, .spawned, .exited 0, .success, some refsOutMain,
   .failed "no git executable", .exited 0, .spawned, .exited 0, .success⟩

/-- Claim C7 fixture: `git checkout` exits nonzero, the rest succeeds. -/
def envCheckoutExit1 : RepoEnv :=
  ⟨.found .directory, .spawned, .exited 0, .success, some refsOutMain,
   .spawned, .exited 1, .spawned, .exited 0, .success⟩

/-- Claim C9 fixture: the stat itself errors out unexpectedly. -/
def envStatError : RepoEnv :=
  ⟨.otherError "stat input-output error", .spawned, .exited 0, .success,
   some refsOutMain, .spawned, .exited 0, .spawned, .exited 0, .success⟩

/-- Claim C10 fixture: an absent repo (probe will report not-found). -/
def envAbsent : RepoEnv :=
  ⟨.notFound, .spawned, .exited 0, .success, some refsOutMain,
   .spawned, .exited 0, .spawned, .exited 0, .success⟩

/-! ## Helper lemmas -/

/-- The head of a filtered list is its first match. -/
theorem filter_head?_eq_find? {α : Type} (p : α → Bool) (l : List α) :
    (l.filter p).head? = l.find? p := by
  induction l with
  | nil => rfl
  | cons c cs ih => by_cases h : p c <;> simp [List.filter_cons, List.find?, h, ih]

/-- Stripping a prefix from that prefix followed by a remainder yields the
remainder. -/
theorem dropPfxChars_self_append (p r : List Char) : dropPfxChars p (p ++ r) = some r := by
  induction p with
  | nil => rfl
  | cons c cs ih => simp [dropPfxChars, ih]

/-- A successful strip decomposes the input as prefix plus remainder. -/
theorem dropPfxChars_eq_some (p : List Char) :
    ∀ l r : List Char, dropPfxChars p l = some r → l = p ++ r := by
  induction p with
  | nil => intro l r h; cases h; rfl
  | cons c cs ih =>
      intro l r h
      cases l with
      | nil => cases h
      | cons a as =>
          by_cases hac : a = c
          · subst hac
            simp only [dropPfxChars, if_pos rfl] at h
            simpa using ih as r h
          · simp [dropPfxChars, hac] at h

/-- Splitting a bar-free string yields a single piece. -/
theorem splitBarNE_no_bar (x : List Char) (h : '|' ∉ x) : splitBarNE x = (x, []) := by
  induction x with
  | nil => rfl
  | cons c cs ih =>
      have hc : c ≠ '|' := fun hc => h (hc ▸ List.mem_cons_self c cs)
      have hcs : '|' ∉ cs := fun hm => h (List.mem_cons_of_mem c hm)
      simp [splitBarNE, ih hcs, hc, Ne.symm hc]

/-- Splitting text with a bar after a bar-free part separates at that bar. -/
theorem splitBarNE_append (x y : List Char) (h : '|' ∉ x) :
    splitBarNE (x ++ '|' :: y) = (x, (splitBarNE y).1 :: (splitBarNE y).2) := by
  induction x with
  | nil => simp [splitBarNE]
  | cons c cs ih =>
      have hc : c ≠ '|' := fun hc => h (hc ▸ List.mem_cons_self c cs)
      have hcs : '|' ∉ cs := fun hm => h (List.mem_cons_of_mem c hm)
      simp [splitBarNE, ih hcs, hc]

/-- The first split piece is the text before the first bar. -/
theorem splitBarNE_fst (cs : List Char) :
    (splitBarNE cs).1 = cs.takeWhile (fun c => c != '|') := by
  induction cs with
  | nil => rfl
  | cons c cs ih =>
      by_cases hc : c = '|'
      · subst hc; simp [splitBarNE, List.takeWhile_cons]
      · simp [splitBarNE, List.takeWhile_cons, hc, ih]

/-- There is no second split piece exactly when the text has no bar. -/
theorem splitBarNE_snd_nil (cs : List Char) : (splitBarNE cs).2 = [] ↔ '|' ∉ cs := by
  induction cs with
  | nil => simp [splitBarNE]
  | cons c cs ih =>
      by_cases hc : c = '|'
      · subst hc; simp [splitBarNE]
      · simp [splitBarNE, hc, ih, Ne.symm hc]

/-- Parsing a well-shaped line returns its name and date fields. -/
theorem parseRefLineChars_wf (b d : List Char) (hb : '|' ∉ b) (hd : '|' ∉ d) :
    parseRefLineChars ("origin/".toList ++ (b ++ '|' :: d)) = Except.ok (b, d) := by
  have hx : '|' ∉ ("origin/".toList ++ b) := by
    intro hm
    rcases List.mem_append.mp hm with hm | hm
    · revert hm; decide
    · exact hb hm
  have hsplit := splitBarNE_append ("origin/".toList ++ b) d hx
  rw [List.append_assoc] at hsplit
  simp only [parseRefLineChars, hsplit, splitBarNE_no_bar d hd,
    dropPfxChars_self_append, List.head?]

/-- One-bar strings decompose around that bar. -/
theorem count_one_decomp (l : List Char) (h : l.count '|' = 1) :
    ∃ b d, l = b ++ '|' :: d ∧ '|' ∉ b ∧ '|' ∉ d := by
  induction l with
  | nil => simp at h
  | cons c cs ih =>
      by_cases hc : c = '|'
      · subst hc
        have h0 : cs.count '|' = 0 := by simpa [List.count_cons] using h
        exact ⟨[], cs, rfl, by simp, by simpa [List.count_eq_zero] using h0⟩
      · have h1 : cs.count '|' = 1 := by simpa [List.count_cons, hc] using h
        obtain ⟨b, d, hbd, hb, hd⟩ := ih h1
        exact ⟨c :: b, d, by rw [hbd]; rfl, by simp [hb, Ne.symm hc], hd⟩

/-- A well-formed line is an `origin/`-prefixed name, one bar, and a date. -/
theorem wfRefLine_decomp (l : String) (h : wfRefLine l = true) :
    ∃ b d, l.toList = "origin/".toList ++ (b ++ '|' :: d) ∧ '|' ∉ b ∧ '|' ∉ d := by
  unfold wfRefLine at h
  cases hdp : dropPfxChars ("origin/".toList) l.toList with
  | none => rw [hdp] at h; cases h
  | some rest =>
      rw [hdp] at h
      obtain ⟨b, d, hbd, hb, hd⟩ := count_one_decomp rest (by simpa using h)
      exact ⟨b, d, by rw [dropPfxChars_eq_some _ _ _ hdp, hbd], hb, hd⟩

/-- Text before the first bar, when the lead-up is bar-free. -/
theorem takeWhile_bar (x y : List Char) (h : '|' ∉ x) :
    (x ++ '|' :: y).takeWhile (fun c => c != '|') = x := by
  induction x with
  | nil => simp [List.takeWhile_cons]
  | cons c cs ih =>
      have hc : c ≠ '|' := fun hc => h (hc ▸ List.mem_cons_self c cs)
      have hcs : '|' ∉ cs := fun hm => h (List.mem_cons_of_mem c hm)
      simp [List.takeWhile_cons, hc, ih hcs]

/-- Text from the first bar on, when the lead-up is bar-free. -/
theorem dropWhile_bar (x y : List Char) (h : '|' ∉ x) :
    (x ++ '|' :: y).dropWhile (fun c => c != '|') = '|' :: y := by
  induction x with
  | nil => simp [List.dropWhile_cons]
  | cons c cs ih =>
      have hc : c ≠ '|' := fun hc => h (hc ▸ List.mem_cons_self c cs)
      have hcs : '|' ∉ cs := fun hm => h (List.mem_cons_of_mem c hm)
      simp [List.dropWhile_cons, hc, ih hcs]

/-- On a well-shaped line the claim-level entry is the stripped name and
the date. -/
theorem claimEntry_wf (l : String) (b d : List Char)
    (hl : l.toList = "origin/".toList ++ (b ++ '|' :: d)) (hb : '|' ∉ b) (_hd : '|' ∉ d) :
    claimEntry l = some (String.mk b, String.mk d) := by
  have hx : '|' ∉ ("origin/".toList ++ b) := by
    intro hm
    rcases List.mem_append.mp hm with hm | hm
    · revert hm; decide
    · exact hb hm
  have hassoc : l.toList = ("origin/".toList ++ b) ++ '|' :: d := by
    rw [hl, List.append_assoc]
  simp only [claimEntry, hassoc, takeWhile_bar _ _ hx, dropWhile_bar _ _ hx,
    dropPfxChars_self_append, List.drop_succ_cons, List.drop_zero]

/-! ## Claim theorems -/

/-- Claim C8: for every repo descriptor whose link map contains the
`"clone"` category, the resolver returns the href of the first entry in
that category's sequence whose label equals `"ssh"`, and returns `none`
when no entry matches (never falling back to another transport); if the
`"clone"` category is absent entirely, the resolver fails loudly
(an unwrap panic) rather than returning `none`. -/
theorem c8_clone_link_resolution (repo : BitBucketRepo) :
    (∀ ls, lookupLinks repo.links "clone" = some ls →
      get_clone_link_for_repo repo =
        Except.ok ((ls.find? (fun link => link.name.getD "" == "ssh")).map
          (fun link => link.href))) ∧
    (lookupLinks repo.links "clone" = none →
      ∃ m, get_clone_link_for_repo repo = Except.error m) := by
  constructor
  · intro ls h
    simp [get_clone_link_for_repo, h, filter_head?_eq_find?]
  · intro h
    exact ⟨"called Option::unwrap on a None value", by simp [get_clone_link_for_repo, h]⟩

/-- Claim C8 witness: the spec's two examples — an ssh entry ahead of an
http entry resolves to the ssh href, an http-only category resolves to
`none` — plus the loud failure on a descriptor with no clone category. -/
theorem c8_clone_link_resolution_witness :
    lookupLinks repoSshHttp.links "clone" =
      some [⟨"ssh://x", some "ssh"⟩, ⟨"https://x", some "http"⟩] ∧
    get_clone_link_for_repo repoSshHttp = Except.ok (some "ssh://x") ∧
    get_clone_link_for_repo repoHttpOnly = Except.ok none ∧
    ∃ m, get_clone_link_for_repo repoNoLinks = Except.error m :=
  ⟨rfl,
   ((c8_clone_link_resolution repoSshHttp).1 _ rfl).trans rfl,
   ((c8_clone_link_resolution repoHttpOnly).1 _ rfl).trans rfl,
   (c8_clone_link_resolution repoNoLinks).2 rfl⟩

/-- Claim C9: the local-state probe (a non-dereferencing stat, so a
symlink is reported as a symlink) maps a missing path to the
should-clone/absent state, an existing directory to already-cloned, an
existing non-directory (regular file or symlink) to a conflict, and any
other stat error to a conflict carrying the error; a conflicted repo only
logs a diagnostic and never enters the branch-sync phase. -/
theorem c9_local_state_probe :
    repoStateOfStat StatOutcome.notFound = RepoActionState.shouldClone ∧
    repoStateOfStat (StatOutcome.found FileKind.directory) = RepoActionState.alreadyCloned ∧
    (∀ k, k.isDirKind = false →
      repoStateOfStat (StatOutcome.found k) =
        RepoActionState.cannotClone "exists on filesystem but is not a directory") ∧
    (∀ m, repoStateOfStat (StatOutcome.otherError m) = RepoActionState.cannotClone m) ∧
    (∀ repo env cwd m, repoStateOfStat env.stat = RepoActionState.cannotClone m →
      processRepo repo env cwd =
        ⟨[Event.probed repo.slug, Event.conflictReported repo.slug],
          StepExit.advance, cwd⟩) := by
  refine ⟨rfl, rfl, ?_, fun m => rfl, ?_⟩
  · intro k hk
    cases k <;> simp [repoStateOfStat, FileKind.isDirKind] at hk ⊢
  · intro repo env cwd m h
    simp [processRepo, h]

/-- Claim C9 witness: a symlink and an unexpected stat error both classify
as conflicts, and a conflicted repo's iteration is just the probe and the
diagnostic. -/
theorem c9_local_state_probe_witness :
    FileKind.isDirKind FileKind.symlink = false ∧
    repoStateOfStat (StatOutcome.found FileKind.symlink) =
      RepoActionState.cannotClone "exists on filesystem but is not a directory" ∧
    processRepo repoOne envStatError WorkDir.targetDir =
      ⟨[Event.probed "repo-one", Event.conflictReported "repo-one"],
        StepExit.advance, WorkDir.targetDir⟩ :=
  ⟨rfl,
   c9_local_state_probe.2.2.1 FileKind.symlink rfl,
   c9_local_state_probe.2.2.2.2 repoOne envStatError WorkDir.targetDir
     "stat input-output error" rfl⟩

/-- Claim C10: the clone-link resolver is consulted only for repositories
probed absent — for any other probe outcome the iteration's behavior is
independent of the descriptor's links (in particular, an already-cloned
repo with no or malformed clone links is still branch-synced), and the
loud failure on a descriptor missing the `"clone"` category occurs in the
absent case. -/
theorem c10_resolver_only_for_absent :
    (∀ (repo : BitBucketRepo) (links2 : List (String × List BitBucketRepoLink))
        (env : RepoEnv) (cwd : WorkDir), env.stat ≠ StatOutcome.notFound →
      processRepo repo env cwd = processRepo ⟨repo.slug, repo.name, links2⟩ env cwd) ∧
    (∀ (repo : BitBucketRepo) (env : RepoEnv) (cwd : WorkDir),
      env.stat = StatOutcome.notFound → lookupLinks repo.links "clone" = none →
      processRepo repo env cwd =
        ⟨[Event.probed repo.slug],
          StepExit.crashed "called Option::unwrap on a None value", cwd⟩) := by
  constructor
  · intro repo links2 env cwd h
    cases hs : env.stat with
    | notFound => exact absurd hs h
    | found k => cases k <;> simp [processRepo, repoStateOfStat, FileKind.isDirKind, hs]
    | otherError m => simp [processRepo, repoStateOfStat, hs]
  · intro repo env cwd h hl
    simp [processRepo, repoStateOfStat, h, get_clone_link_for_repo, hl]

/-- Claim C10 witness: a present-as-directory repo is processed
identically when its links are erased (the resolver is never consulted),
while an absent repo with no clone category panics on the unwrap. -/
theorem c10_resolver_only_for_absent_witness :
    envHappy.stat ≠ StatOutcome.notFound ∧
    processRepo repoHttpOnly envHappy WorkDir.targetDir =
      processRepo ⟨"repo-h", "Repo H", []⟩ envHappy WorkDir.targetDir ∧
    processRepo repoNoLinks envAbsent WorkDir.targetDir =
      ⟨[Event.probed "repo-n"],
        StepExit.crashed "called Option::unwrap on a None value", WorkDir.targetDir⟩ :=
  ⟨by decide,
   c10_resolver_only_for_absent.1 repoHttpOnly [] envHappy WorkDir.targetDir (by decide),
   c10_resolver_only_for_absent.2 repoNoLinks envAbsent WorkDir.targetDir rfl rfl⟩

/-- Under per-line well-formedness the lazy code selector agrees with the
claim-level first-surviving-entry selection. -/
theorem selectFromLines_eq_claimSelect (lines : List String)
    (h : ∀ l ∈ lines, wfRefLine l = true) :
    selectFromLines lines =
      (match claimSelect lines with
       | some e => SelectResult.found e.1 e.2
       | none => SelectResult.noBranch) := by
  induction lines with
  | nil => rfl
  | cons l rest ih =>
      obtain ⟨b, d, hl, hb, hd⟩ := wfRefLine_decomp l (h l (List.mem_cons_self l rest))
      have hparse : parseRefLineChars l.toList = Except.ok (b, d) := by
        rw [hl]; exact parseRefLineChars_wf b d hb hd
      have hentry : claimEntry l = some (String.mk b, String.mk d) :=
        claimEntry_wf l b d hl hb hd
      have hrest : ∀ x ∈ rest, wfRefLine x = true :=
        fun x hx => h x (List.mem_cons_of_mem l hx)
      by_cases hhead : b = "HEAD".toList
      · have hne : (String.mk b != "HEAD") = false := by rw [hhead]; decide
        simp only [selectFromLines, hparse, if_pos hhead, claimSelect,
          List.filterMap_cons, hentry, List.filter_cons, hne]
        exact ih hrest
      · have hne : (String.mk b != "HEAD") = true := by
          refine bne_iff_ne.mpr ?_
          intro hcontra
          exact hhead (congrArg String.toList hcontra)
        simp only [selectFromLines, hparse, if_neg hhead, claimSelect,
          List.filterMap_cons, hentry, List.filter_cons, hne]
        rfl

/-- Claim C3: for every well-formed ref-listing output (each line is an
`origin/`-prefixed ref field, one bar, and a date field), the selector
splits the output into lines, splits each line on the first bar, strips
the `origin/` prefix, discards entries named exactly `HEAD`, and returns
the first surviving entry in input order — `noBranch` when none survives
(in particular on empty input, whose line list is empty). -/
theorem c3_branch_selection (raw : String)
    (h : ∀ l ∈ rustLines raw, wfRefLine l = true) :
    select raw =
      (match claimSelect (rustLines raw) with
       | some e => SelectResult.found e.1 e.2
       | none => SelectResult.noBranch) :=
  selectFromLines_eq_claimSelect (rustLines raw) h

/-- Claim C3 witness: the spec's example listing selects the `main` entry
(HEAD excluded, first remaining in input order), and empty input selects
nothing. -/
theorem c3_branch_selection_witness :
    (∀ l ∈ rustLines exampleRefListing, wfRefLine l = true) ∧
    select exampleRefListing = SelectResult.found "main" "2024-01-01" ∧
    select "" = SelectResult.noBranch := by
  refine ⟨by decide, ?_, ?_⟩
  · rw [c3_branch_selection exampleRefListing (by decide)]; rfl
  · rw [c3_branch_selection "" (by decide)]; rfl

/-- Malformedness in claim C4's sense makes the per-line parse panic. -/
theorem parse_error_of_claimMalformed (l : String) (h : claimMalformed l = true) :
    ∃ m, parseRefLineChars l.toList = Except.error m := by
  unfold claimMalformed at h
  rw [Bool.or_eq_true] at h
  rcases h with h | h
  · rw [← splitBarNE_fst] at h
    cases hdp : dropPfxChars ("origin/".toList) (splitBarNE l.toList).1 with
    | none =>
        exact ⟨"strip_prefix origin returned None", by unfold parseRefLineChars; rw [hdp]⟩
    | some rest => rw [hdp] at h; cases h
  · have hnb : '|' ∉ l.toList := by simpa using h
    have h2 : (splitBarNE l.toList).2 = [] := (splitBarNE_snd_nil _).mpr hnb
    cases hdp : dropPfxChars ("origin/".toList) (splitBarNE l.toList).1 with
    | none =>
        exact ⟨"strip_prefix origin returned None", by unfold parseRefLineChars; rw [hdp]⟩
    | some rest =>
        exact ⟨"split produced no second field", by unfold parseRefLineChars; rw [hdp, h2]; rfl⟩

/-- Claim C4 counterexample: on a listing whose first line lacks the
`origin/` prefix the selector does not skip that line and continue to the
remaining lines — the unwrap on `strip_prefix` panics, so the surviving
`origin/dev` entry of the second line is never returned. -/
theorem c4_counterexample :
    claimMalformed "main|2024-01-01" = true ∧
    select malformedListing = SelectResult.crash "strip_prefix origin returned None" ∧
    select malformedListing ≠ SelectResult.found "dev" "2023-12-01" :=
  ⟨by decide, rfl, by decide⟩

/-- Claim C4 amended: a line whose ref field lacks the `origin/` prefix, or
that cannot be split on a bar into two fields, is not skipped — whenever it
is reached (every earlier line parsed to a discarded `HEAD` entry) the
parse panics and aborts the whole program; lines lying after the first
surviving entry are never examined at all (the iterator is lazy), so a
malformed line there is silently ignored rather than diagnosed. -/
theorem c4_amended :
    (∀ (pre : List String) (bad : String) (post : List String),
      (∀ l ∈ pre, headOnlyLine l = true) → claimMalformed bad = true →
      (selectFromLines (pre ++ bad :: post)).isCrash = true) ∧
    (∀ (pre : List String) (good : String) (post : List String) (b d : List Char),
      (∀ l ∈ pre, headOnlyLine l = true) →
      parseRefLineChars good.toList = Except.ok (b, d) → b ≠ "HEAD".toList →
      selectFromLines (pre ++ good :: post) =
        SelectResult.found (String.mk b) (String.mk d)) := by
  constructor
  · intro pre bad post
    induction pre with
    | nil =>
        intro _ hbad
        obtain ⟨m, hm⟩ := parse_error_of_claimMalformed bad hbad
        simp only [List.nil_append, selectFromLines, hm, SelectResult.isCrash]
    | cons l pre ih =>
        intro hpre hbad
        have hl := hpre l (List.mem_cons_self l pre)
        cases hp : parseRefLineChars l.toList with
        | error m =>
            simp only [headOnlyLine, hp] at hl
            exact absurd hl (by decide)
        | ok bd =>
            simp only [headOnlyLine, hp] at hl
            have hhead : bd.1 = "HEAD".toList := by simpa using hl
            rcases bd with ⟨b0, d0⟩
            simp only [List.cons_append, selectFromLines, hp]
            rw [if_pos hhead]
            exact ih (fun x hx => hpre x (List.mem_cons_of_mem l hx)) hbad
  · intro pre good post b d
    induction pre with
    | nil =>
        intro _ hgood hne
        simp only [List.nil_append, selectFromLines, hgood]
        rw [if_neg hne]
    | cons l pre ih =>
        intro hpre hgood hne
        have hl := hpre l (List.mem_cons_self l pre)
        cases hp : parseRefLineChars l.toList with
        | error m =>
            simp only [headOnlyLine, hp] at hl
            exact absurd hl (by decide)
        | ok bd =>
            simp only [headOnlyLine, hp] at hl
            have hhead : bd.1 = "HEAD".toList := by simpa using hl
            rcases bd with ⟨b0, d0⟩
            simp only [List.cons_append, selectFromLines, hp]
            rw [if_pos hhead]
            exact ih (fun x hx => hpre x (List.mem_cons_of_mem l hx)) hgood hne

/-- Claim C4 amended witness: a malformed line reached after a discarded
`HEAD` line panics the selection, while a malformed line sitting after the
first surviving entry is never looked at. -/
theorem c4_amended_witness :
    (selectFromLines ["origin/HEAD|x", "main|2024", "origin/dev|2023"]).isCrash = true ∧
    selectFromLines ["origin/HEAD|x", "origin/main|2024-01-01", "not-a-ref-line"] =
      SelectResult.found "main" "2024-01-01" :=
  ⟨c4_amended.1 ["origin/HEAD|x"] "main|2024" ["origin/dev|2023"] (by decide) (by decide),
   c4_amended.2 ["origin/HEAD|x"] "origin/main|2024-01-01" ["not-a-ref-line"]
     "main".toList "2024-01-01".toList (by decide) rfl (by decide)⟩

/-- Clone wait diagnostics contain no probe event. -/
theorem probed_cloneWaitEvents (link : String) (w : WaitOutcome) :
    (cloneWaitEvents link w).filterMap probedSlug = [] := by
  cases w with
  | exited c => by_cases h : (c == 0) = true <;> simp [cloneWaitEvents, h, probedSlug]
  | signaled => rfl
  | waitError m => rfl

/-- Checkout wait diagnostics contain no probe event. -/
theorem probed_checkoutWaitEvents (b : String) (w : WaitOutcome) :
    (checkoutWaitEvents b w).filterMap probedSlug = [] := by
  cases w with
  | exited c => by_cases h : (c == 0) = true <;> simp [checkoutWaitEvents, h, probedSlug]
  | signaled => rfl
  | waitError m => rfl

/-- Pull wait diagnostics contain no probe event. -/
theorem probed_pullWaitEvents (slug : String) (w : WaitOutcome) :
    (pullWaitEvents slug w).filterMap probedSlug = [] := by
  cases w with
  | exited c => by_cases h : (c == 0) = true <;> simp [pullWaitEvents, h, probedSlug]
  | signaled => rfl
  | waitError m => rfl

/-- The branch-sync phase emits no probe event: the probe projection of its
trace is exactly that of the accumulated prefix. -/
theorem branchSync_probed (slug : String) (env : RepoEnv) (t : List Event) (cwd : WorkDir) :
    (branchSync slug env t cwd).trace.filterMap probedSlug = t.filterMap probedSlug := by
  unfold branchSync restoreAndAdvance
  repeat' split
  all_goals simp [List.filterMap_append, probed_checkoutWaitEvents, probed_pullWaitEvents,
    probedSlug]

/-- The branch-sync phase only appends events after the accumulated
prefix. -/
theorem branchSync_trace_prefix (slug : String) (env : RepoEnv) (t : List Event)
    (cwd : WorkDir) :
    t <+: (branchSync slug env t cwd).trace := by
  unfold branchSync restoreAndAdvance
  repeat' split
  all_goals simp [List.append_assoc, List.prefix_append]

/-- Every iteration probes its repository exactly once, first. -/
theorem processRepo_probed (repo : BitBucketRepo) (env : RepoEnv) (cwd : WorkDir) :
    (processRepo repo env cwd).trace.filterMap probedSlug = [repo.slug] := by
  unfold processRepo
  repeat' split
  all_goals simp [branchSync_probed, List.filterMap_append, probed_cloneWaitEvents, probedSlug]

/-- Under a tame environment the branch-sync phase always advances to the
next repository (no abort, no panic). -/
theorem branchSync_tame_exit (slug : String) (env : RepoEnv) (t : List Event) (cwd : WorkDir)
    (h1 : env.enterRepoDir = CdOutcome.success)
    (h2 : env.leaveRepoDir = CdOutcome.success)
    (h3 : decodeTame env.refsRun = true) :
    (branchSync slug env t cwd).exit = StepExit.advance := by
  unfold branchSync restoreAndAdvance
  repeat' split
  all_goals simp_all [decodeTame, SelectResult.isCrash]

/-- Under a tame environment every iteration advances to the next
repository. -/
theorem processRepo_tame (repo : BitBucketRepo) (env : RepoEnv) (cwd : WorkDir)
    (h : tameEnv repo env) :
    (processRepo repo env cwd).exit = StepExit.advance := by
  obtain ⟨h1, h2, h3, h4⟩ := h
  unfold processRepo
  cases hs : env.stat with
  | notFound =>
      simp only [repoStateOfStat]
      cases hg : get_clone_link_for_repo repo with
      | error m =>
          simp only [cloneLinkTame, hs, hg] at h4
          exact Bool.noConfusion h4
      | ok r =>
          cases r with
          | none => simp [hg]
          | some link =>
              cases hcs : env.cloneSpawn with
              | failed m => simp [hg, hcs]
              | spawned => simp [hg, hcs, branchSync_tame_exit _ _ _ _ h1 h2 h3]
  | found k =>
      cases k with
      | directory =>
          simp only [repoStateOfStat, FileKind.isDirKind]
          exact branchSync_tame_exit _ _ _ _ h1 h2 h3
      | regularFile => rfl
      | symlink => rfl
  | otherError m => rfl

/-- Under tame environments the loop runs to completion, attempting every
repository in lister order. -/
theorem runRepos_tame (l : List (BitBucketRepo × RepoEnv)) (cwd : WorkDir)
    (h : ∀ p ∈ l, tameEnv p.1 p.2) :
    (runRepos l cwd).2.1 = StepExit.advance ∧
    (runRepos l cwd).1.filterMap probedSlug = l.map (fun p => p.1.slug) := by
  induction l generalizing cwd with
  | nil => exact ⟨rfl, rfl⟩
  | cons p rest ih =>
      obtain ⟨repo, env⟩ := p
      have hp := processRepo_tame repo env cwd (h _ (List.mem_cons_self _ _))
      have hr := ih ((processRepo repo env cwd).cwd)
        (fun q hq => h q (List.mem_cons_of_mem _ hq))
      constructor
      · simp only [runRepos, hp]
        exact hr.1
      · simp only [runRepos, hp, List.filterMap_append, processRepo_probed, List.map_cons]
        rw [hr.2]
        rfl

/-- Claim C1 counterexample: a purely per-repo failure — the
`set_current_dir(&repo.slug)` call failing for the first repository — is
not caught: the `?` operator propagates it, `main` returns an error
(nonzero exit), and the remaining repository is never attempted. -/
theorem c1_counterexample :
    (runMain [(repoOne, envEnterFails), (repoTwo, envHappy)] CdOutcome.success).2.1 =
      MainExit.errExit "permission denied" ∧
    Event.probed "repo-two" ∉
      (runMain [(repoOne, envEnterFails), (repoTwo, envHappy)] CdOutcome.success).1 :=
  ⟨rfl, by decide⟩

/-- Claim C1 amended: per-repo failures that surface as command results —
probe conflicts, clone spawn or wait failures, ref-listing spawn failures,
checkout/pull spawn or wait failures, a missing ssh clone link — are caught
and logged, the loop attempts all N repositories in order, and the process
exits 0; however, a failure to enter a repo's directory, a failure to
decode the ref-listing stdout, a failure to restore the working directory,
a malformed ref line reached by selection, and a missing `"clone"` link
category for an absent repo are NOT per-repo-isolated: the first two and
the restore failure propagate out of `main` (nonzero exit) and the last
two panic.  The theorem states the positive half: under environments free
of those specific hazards the run completes with exit 0 having probed
every listed repository in order. -/
theorem c1_amended (l : List (BitBucketRepo × RepoEnv))
    (h : ∀ p ∈ l, tameEnv p.1 p.2) :
    (runMain l CdOutcome.success).2.1 = MainExit.ok ∧
    (runMain l CdOutcome.success).1.filterMap probedSlug = l.map (fun p => p.1.slug) := by
  obtain ⟨he, ht⟩ := runRepos_tame l WorkDir.targetDir h
  constructor
  · simp only [runMain, he]
  · simp only [runMain, he]
    exact ht

/-- Claim C1 amended witness: a batch whose first repo hits a ref-listing
spawn failure and whose second repo's clone exits nonzero still probes both
repositories in order and exits 0. -/
theorem c1_amended_witness :
    (∀ p ∈ [(repoOne, envRefsSpawnFails), (repoTwo, envCloneExit1)], tameEnv p.1 p.2) ∧
    (runMain [(repoOne, envRefsSpawnFails), (repoTwo, envCloneExit1)] CdOutcome.success).2.1 =
      MainExit.ok ∧
    (runMain [(repoOne, envRefsSpawnFails), (repoTwo, envCloneExit1)]
        CdOutcome.success).1.filterMap probedSlug = ["repo-one", "repo-two"] :=
  ⟨by decide,
   (c1_amended [(repoOne, envRefsSpawnFails), (repoTwo, envCloneExit1)] (by decide)).1,
   ((c1_amended [(repoOne, envRefsSpawnFails), (repoTwo, envCloneExit1)] (by decide)).2).trans
     rfl⟩

/-- Claim C2 (code-bug demonstration): when `git for-each-ref` fails to
spawn, the `continue` skips the end-of-loop
`set_current_dir(&opts.target_directory)`, so the iteration advances to
the next repository with the working directory still inside the failed
repository's directory instead of the parent target directory. -/
theorem c2_cwd_not_restored :
    (processRepo repoY envRefsSpawnFails WorkDir.targetDir).exit = StepExit.advance ∧
    (processRepo repoY envRefsSpawnFails WorkDir.targetDir).cwd =
      WorkDir.sub WorkDir.targetDir "repo-y" ∧
    (processRepo repoY envRefsSpawnFails WorkDir.targetDir).cwd ≠ WorkDir.targetDir :=
  ⟨rfl, rfl, by decide⟩

/-- Claim C5 counterexample: when `git clone` fails to spawn, the iteration
logs the failure and continues to the next repository — it does not enter
the repo's directory and never runs the branch-sync phase, contrary to the
claim that every non-success clone result (including spawn failure) still
leads to branch-sync. -/
theorem c5_counterexample :
    processRepo repoC5 envCloneSpawnFails WorkDir.targetDir =
      ⟨[Event.probed "repo-c5", Event.cloneSpawnFailureLogged "ssh://c5"],
        StepExit.advance, WorkDir.targetDir⟩ ∧
    Event.enteredRepoDir "repo-c5" ∉
      (processRepo repoC5 envCloneSpawnFails WorkDir.targetDir).trace :=
  ⟨rfl, by decide⟩

/-- Claim C5 amended: for a locally absent repository with a resolved clone
link whose `git clone` process does spawn, any non-success wait result
(nonzero exit code, termination by signal, or a wait error) is logged but
does not abort the repo's processing — the orchestrator still proceeds to
the branch-sync phase; a failure to spawn the clone process instead skips
the repository entirely. -/
theorem c5_amended (repo : BitBucketRepo) (env : RepoEnv) (cwd : WorkDir) (link : String)
    (h1 : env.stat = StatOutcome.notFound)
    (h2 : get_clone_link_for_repo repo = Except.ok (some link))
    (h3 : env.cloneSpawn = SpawnOutcome.spawned)
    (h4 : env.cloneWait.isSuccess = false) :
    processRepo repo env cwd =
      branchSync repo.slug env
        [Event.probed repo.slug, Event.cloneStarted link, Event.cloneFailureLogged link]
        cwd := by
  have hw : cloneWaitEvents link env.cloneWait = [Event.cloneFailureLogged link] := by
    cases hcw : env.cloneWait with
    | exited c =>
        rw [hcw] at h4
        simp only [WaitOutcome.isSuccess] at h4
        simp [cloneWaitEvents, h4]
    | signaled => rfl
    | waitError m => rfl
  simp [processRepo, repoStateOfStat, h1, h2, h3, hw]

/-- Claim C5 amended witness: the clone exits with code 1, yet the repo
directory is entered and checkout/pull still run. -/
theorem c5_amended_witness :
    envCloneExit1.cloneWait.isSuccess = false ∧
    processRepo repoC5 envCloneExit1 WorkDir.targetDir =
      branchSync "repo-c5" envCloneExit1
        [Event.probed "repo-c5", Event.cloneStarted "ssh://c5",
          Event.cloneFailureLogged "ssh://c5"] WorkDir.targetDir ∧
    Event.enteredRepoDir "repo-c5" ∈
      (processRepo repoC5 envCloneExit1 WorkDir.targetDir).trace ∧
    Event.checkoutStarted "main" ∈
      (processRepo repoC5 envCloneExit1 WorkDir.targetDir).trace :=
  ⟨by decide,
   c5_amended repoC5 envCloneExit1 WorkDir.targetDir "ssh://c5" rfl rfl rfl (by decide),
   by decide, by decide⟩

/-- Claim C6 counterexample: the ref-listing command exits with nonzero
status 128, yet the code never inspects that exit status — it decodes the
captured stdout and proceeds to checkout and pull instead of skipping the
repository's remaining steps. -/
theorem c6_counterexample :
    envRefsBadStatus.refsRun = some ⟨some 128, some "origin/main|Mon Jan 1"⟩ ∧
    Event.checkoutStarted "main" ∈
      (processRepo repoC6 envRefsBadStatus WorkDir.targetDir).trace ∧
    Event.pullStarted "repo-c6" ∈
      (processRepo repoC6 envRefsBadStatus WorkDir.targetDir).trace :=
  ⟨rfl, by decide, by decide⟩

/-- Claim C6 amended: in the branch-sync phase only a *spawn* failure of
the ref-listing command skips the repository's remaining steps — a
diagnostic is logged, no checkout or pull is attempted, and the batch
proceeds to the next repository, though with the working directory left
inside the repo rather than restored; the command's exit status is never
inspected; and a failure to decode the captured stdout aborts the whole
run with a nonzero exit instead of skipping the repo. -/
theorem c6_amended :
    (∀ (repo : BitBucketRepo) (env : RepoEnv) (cwd : WorkDir),
      env.stat = StatOutcome.found FileKind.directory →
      env.enterRepoDir = CdOutcome.success → env.refsRun = none →
      processRepo repo env cwd =
        ⟨[Event.probed repo.slug, Event.alreadyClonedReported repo.slug,
            Event.enteredRepoDir repo.slug, Event.refsSpawnFailureLogged repo.slug],
          StepExit.advance, WorkDir.sub cwd repo.slug⟩) ∧
    (∀ (repo : BitBucketRepo) (env : RepoEnv) (cwd : WorkDir) (out : RefsOutput),
      env.stat = StatOutcome.found FileKind.directory →
      env.enterRepoDir = CdOutcome.success →
      env.refsRun = some out → out.stdoutUtf8 = none →
      (processRepo repo env cwd).exit = StepExit.abortErr "stdout is not valid UTF-8") := by
  constructor
  · intro repo env cwd hs he hr
    simp [processRepo, repoStateOfStat, FileKind.isDirKind, hs, branchSync, he, hr]
  · intro repo env cwd out hs he hr hd
    simp [processRepo, repoStateOfStat, FileKind.isDirKind, hs, branchSync, he, hr, hd]

/-- Claim C6 amended witness: a spawn failure yields exactly the probe,
already-cloned report, directory entry and diagnostic (no checkout/pull)
and advances; an undecodable stdout aborts the run. -/
theorem c6_amended_witness :
    processRepo repoC6 envRefsSpawnFails WorkDir.targetDir =
      ⟨[Event.probed "repo-c6", Event.alreadyClonedReported "repo-c6",
          Event.enteredRepoDir "repo-c6", Event.refsSpawnFailureLogged "repo-c6"],
        StepExit.advance, WorkDir.sub WorkDir.targetDir "repo-c6"⟩ ∧
    (processRepo repoC6 envRefsBadUtf8 WorkDir.targetDir).exit =
      StepExit.abortErr "stdout is not valid UTF-8" :=
  ⟨c6_amended.1 repoC6 envRefsSpawnFails WorkDir.targetDir rfl rfl rfl,
   c6_amended.2 repoC6 envRefsBadUtf8 WorkDir.targetDir ⟨some 0, none⟩ rfl rfl rfl rfl⟩

/-- Claim C7 counterexample: a branch is selected but `git checkout` fails
to spawn — the failure is logged and the iteration continues to the next
repository WITHOUT ever running `git pull`, contrary to the claim that
after any non-success checkout result the pull operation is then run. -/
theorem c7_counterexample :
    processRepo repoC7 envCheckoutSpawnFails WorkDir.targetDir =
      ⟨[Event.probed "repo-c7", Event.alreadyClonedReported "repo-c7",
          Event.enteredRepoDir "repo-c7", Event.refsListed "repo-c7",
          Event.checkoutSpawnFailureLogged "main"],
        StepExit.advance, WorkDir.sub WorkDir.targetDir "repo-c7"⟩ ∧
    Event.pullStarted "repo-c7" ∉
      (processRepo repoC7 envCheckoutSpawnFails WorkDir.targetDir).trace :=
  ⟨rfl, by decide⟩

/-- Claim C7 amended: when a branch is selected and the checkout process
spawns, any non-success checkout wait result is logged and the pull is
still run afterwards (checkout events strictly precede the pull events in
the trace, and either wait outcome reaches the advancing Done state);
when the checkout process fails to spawn, the repo's remaining steps —
including the pull — are skipped.  Within a repository the clone events
strictly precede all branch-sync events, and across the batch the
repositories are attempted in the order returned by the lister (the
sequence of probed slugs is a prefix of the listed slugs, proper only when
an aborting failure stops the batch early). -/
theorem c7_amended :
    (∀ (repo : BitBucketRepo) (env : RepoEnv) (cwd : WorkDir) (out : RefsOutput)
        (raw b d : String),
      env.stat = StatOutcome.found FileKind.directory →
      env.enterRepoDir = CdOutcome.success →
      env.refsRun = some out → out.stdoutUtf8 = some raw →
      select raw = SelectResult.found b d →
      env.checkoutSpawn = SpawnOutcome.spawned →
      env.pullSpawn = SpawnOutcome.spawned →
      env.leaveRepoDir = CdOutcome.success →
      processRepo repo env cwd =
        ⟨[Event.probed repo.slug, Event.alreadyClonedReported repo.slug,
            Event.enteredRepoDir repo.slug, Event.refsListed repo.slug,
            Event.checkoutStarted b] ++ checkoutWaitEvents b env.checkoutWait
          ++ [Event.pullStarted repo.slug] ++ pullWaitEvents repo.slug env.pullWait
          ++ [Event.leftRepoDir repo.slug],
          StepExit.advance, WorkDir.targetDir⟩) ∧
    (∀ (repo : BitBucketRepo) (env : RepoEnv) (cwd : WorkDir) (link : String),
      env.stat = StatOutcome.notFound →
      get_clone_link_for_repo repo = Except.ok (some link) →
      env.cloneSpawn = SpawnOutcome.spawned →
      processRepo repo env cwd =
        branchSync repo.slug env
          ([Event.probed repo.slug, Event.cloneStarted link]
            ++ cloneWaitEvents link env.cloneWait) cwd ∧
      ([Event.probed repo.slug, Event.cloneStarted link]
          ++ cloneWaitEvents link env.cloneWait) <+: (processRepo repo env cwd).trace) ∧
    (∀ (l : List (BitBucketRepo × RepoEnv)) (cwd : WorkDir),
      (runRepos l cwd).1.filterMap probedSlug <+: l.map (fun p => p.1.slug)) := by
  refine ⟨?_, ?_, ?_⟩
  · intro repo env cwd out raw b d hs he hr hd hsel hcs hps hl
    simp [processRepo, repoStateOfStat, FileKind.isDirKind, hs, branchSync,
      restoreAndAdvance, he, hr, hd, hsel, hcs, hps, hl, List.append_assoc]
  · intro repo env cwd link hs hg hcs
    have hmain : processRepo repo env cwd =
        branchSync repo.slug env
          ([Event.probed repo.slug, Event.cloneStarted link]
            ++ cloneWaitEvents link env.cloneWait) cwd := by
      simp [processRepo, repoStateOfStat, hs, hg, hcs]
    refine ⟨hmain, ?_⟩
    rw [hmain]
    exact branchSync_trace_prefix _ _ _ _
  · intro l
    induction l with
    | nil => intro cwd; exact List.nil_prefix
    | cons p rest ih =>
        intro cwd
        obtain ⟨repo, env⟩ := p
        cases hx : (processRepo repo env cwd).exit with
        | advance =>
            simp only [runRepos, hx, List.filterMap_append, processRepo_probed, List.map_cons]
            obtain ⟨tail, htail⟩ := ih ((processRepo repo env cwd).cwd)
            exact ⟨tail, by
              simp only [List.cons_append, List.nil_append, List.append_assoc]
              rw [htail]⟩
        | abortErr m =>
            simp only [runRepos, hx, processRepo_probed, List.map_cons]
            exact ⟨List.map (fun q : BitBucketRepo × RepoEnv => q.1.slug) rest, rfl⟩
        | crashed m =>
            simp only [runRepos, hx, processRepo_probed, List.map_cons]
            exact ⟨List.map (fun q : BitBucketRepo × RepoEnv => q.1.slug) rest, rfl⟩

/-- Claim C7 amended witness: a checkout exiting nonzero is logged and the
pull still runs afterwards in the same iteration; a clone-path iteration's
trace begins with the clone events; the probe order of a batch is a prefix
of the listed slugs. -/
theorem c7_amended_witness :
    processRepo repoC7 envCheckoutExit1 WorkDir.targetDir =
      ⟨[Event.probed "repo-c7", Event.alreadyClonedReported "repo-c7",
          Event.enteredRepoDir "repo-c7", Event.refsListed "repo-c7",
          Event.checkoutStarted "main"]
        ++ checkoutWaitEvents "main" envCheckoutExit1.checkoutWait
        ++ [Event.pullStarted "repo-c7"]
        ++ pullWaitEvents "repo-c7" envCheckoutExit1.pullWait
        ++ [Event.leftRepoDir "repo-c7"],
        StepExit.advance, WorkDir.targetDir⟩ ∧
    ([Event.probed "repo-c5", Event.cloneStarted "ssh://c5"]
        ++ cloneWaitEvents "ssh://c5" envCloneExit1.cloneWait) <+:
      (processRepo repoC5 envCloneExit1 WorkDir.targetDir).trace ∧
    (runRepos [(repoOne, envEnterFails), (repoTwo, envHappy)] WorkDir.targetDir).1.filterMap
        probedSlug <+: ["repo-one", "repo-two"] :=
  ⟨c7_amended.1 repoC7 envCheckoutExit1 WorkDir.targetDir refsOutMain
      "origin/main|Mon Jan 1" "main" "Mon Jan 1" rfl rfl rfl rfl rfl rfl rfl rfl,
   (c7_amended.2.1 repoC5 envCloneExit1 WorkDir.targetDir "ssh://c5" rfl rfl rfl).2,
   c7_amended.2.2 [(repoOne, envEnterFails), (repoTwo, envHappy)] WorkDir.targetDir⟩
